import Mathlib

/-!
Shallow embedding of `grid_search.py`: a resumable grid-search engine built
from a small iterator hierarchy (`IntRangeIterator`, `CombinedRangeIterator`,
`ConstantExtendedRangeIterator`) and a session state machine
(`GridSearchSession`) driving one trial per step.

Python values that flow through the iterators and the session (`None`,
integers, lists/tuples of such) are embedded as the inductive type `Val`;
Python `None` is `Val.none`.  Mutating methods become state-passing
functions; methods that may raise become `Except`/`Option` results.
-/

/-- A Python value as used by the grid-search engine: `None`, an integer, or a
list/tuple of values (Python lists and tuples are both embedded as `.list`). -/
inductive Val where
  | none : Val
  | int (n : Nat) : Val
  | list (vs : List Val) : Val
deriving Repr

mutual

/-- Decidable equality for `Val` (Python `is None` tests and `==`). -/
def Val.decEqFn : (a b : Val) → Decidable (a = b)
  | .none, .none => isTrue rfl
  | .none, .int _ => isFalse (by intro hc; exact Val.noConfusion hc)
  | .none, .list _ => isFalse (by intro hc; exact Val.noConfusion hc)
  | .int _, .none => isFalse (by intro hc; exact Val.noConfusion hc)
  | .int m, .int n =>
    match Nat.decEq m n with
    | isTrue h => isTrue (by rw [h])
    | isFalse h => isFalse (by intro hc; injection hc; contradiction)
  | .int _, .list _ => isFalse (by intro hc; exact Val.noConfusion hc)
  | .list _, .none => isFalse (by intro hc; exact Val.noConfusion hc)
  | .list _, .int _ => isFalse (by intro hc; exact Val.noConfusion hc)
  | .list as, .list bs =>
    match Val.decEqListFn as bs with
    | isTrue h => isTrue (by rw [h])
    | isFalse h => isFalse (by intro hc; injection hc; contradiction)
termination_by structural a => a

/-- Decidable equality for lists of `Val`. -/
def Val.decEqListFn : (as bs : List Val) → Decidable (as = bs)
  | [], [] => isTrue rfl
  | [], _ :: _ => isFalse (by intro hc; exact List.noConfusion hc)
  | _ :: _, [] => isFalse (by intro hc; exact List.noConfusion hc)
  | a :: as, b :: bs =>
    match Val.decEqFn a b, Val.decEqListFn as bs with
    | isTrue h1, isTrue h2 => isTrue (by rw [h1, h2])
    | isFalse h1, _ => isFalse (by intro hc; injection hc; contradiction)
    | isTrue _, isFalse h2 => isFalse (by intro hc; injection hc; contradiction)
termination_by structural a => a

end

instance : DecidableEq Val := Val.decEqFn

/-- Python subscripting `v[i]` on an embedded value: defined only when `v` is
a list/tuple and `i` is in range (otherwise Python raises
`IndexError`/`TypeError`, embedded as `Option.none`). -/
def Val.at? : Val → Nat → Option Val
  | .list vs, i => vs.get? i
  | _, _ => Option.none

/-- The iterator hierarchy of `grid_search.py` as one state type:
`intRange` is `IntRangeIterator` (fields `upperbound`, `pointer`),
`combined` is `CombinedRangeIterator` (field `iterable` plus the sub-iterator
list `rangeiters`), and `constExt` is `ConstantExtendedRangeIterator`
(fields `lconst`, `rconst` — Python `None` is `Option.none` — and the wrapped
iterator). -/
inductive RIter where
  | intRange (upperbound pointer : Nat) : RIter
  | combined (iterable : Bool) (rangeiters : List RIter) : RIter
  | constExt (lconst rconst : Option (List Val)) (inner : RIter) : RIter
deriving Repr

namespace RIter

/-- `hasNext()` of each iterator class. -/
def hasNext : RIter → Bool
  | .intRange upperbound pointer => pointer < upperbound
  | .combined iterable _ => iterable
  | .constExt _ _ inner => hasNext inner

mutual

/-- `get()` of each iterator class (`Val.none` embeds Python `None`). -/
def get : RIter → Val
  | .intRange upperbound pointer =>
    if pointer < upperbound then .int pointer else .none
  | .combined iterable rangeiters =>
    if iterable then .list (getList rangeiters) else .none
  | .constExt lconst rconst inner =>
    if hasNext inner then
      .list (lconst.getD [] ++ [get inner] ++ rconst.getD [])
    else .none

termination_by structural s => s

/-- `[ri.get() for ri in self.rangeiters]`. -/
def getList : List RIter → List Val
  | [] => []
  | r :: rs => get r :: getList rs
termination_by structural l => l

end

mutual

/-- `reset()` of each iterator class.  For `CombinedRangeIterator` this resets
every sub-iterator and recomputes `iterable` as in
`self.iterable = self.rangeiters and all([ri.hasNext() for ri in self.rangeiters])`
(an empty sub-iterator list is falsy). -/
def reset : RIter → RIter
  | .intRange upperbound _ => .intRange upperbound 0
  | .combined _ rangeiters =>
    .combined
      (!(resetList rangeiters).isEmpty && (resetList rangeiters).all hasNext)
      (resetList rangeiters)
  | .constExt lconst rconst inner => .constExt lconst rconst (reset inner)

termination_by structural s => s

/-- `for ri in self.rangeiters: ri.reset()`. -/
def resetList : List RIter → List RIter
  | [] => []
  | r :: rs => reset r :: resetList rs
termination_by structural l => l

end

mutual

/-- `iterate()` of each iterator class, returning the yielded value together
with the post-call state.  The `combined` case performs the odometer carry
loop of `CombinedRangeIterator.iterate` (carry starts at sub-iterator 0). -/
def iterate : RIter → Val × RIter
  | .intRange upperbound pointer =>
    if pointer < upperbound then
      (.int pointer, .intRange upperbound (pointer + 1))
    else (.none, .intRange upperbound pointer)
  | .combined iterable rangeiters =>
    let g := get (.combined iterable rangeiters)
    if g = .none then (g, .combined false rangeiters)
    else
      let (rs, stopped) := carry rangeiters
      if stopped then (g, .combined iterable rs) else (g, .combined false rs)
  | .constExt lconst rconst inner =>
    let g := get (.constExt lconst rconst inner)
    if g = .none then (g, .constExt lconst rconst inner)
    else (g, .constExt lconst rconst (iterate inner).2)
termination_by structural s => s

/-- The carry loop body of `CombinedRangeIterator.iterate`: advance the
current sub-iterator; if it is exhausted, reset it and carry on to the next
(the returned flag is false iff the carry ran past the last sub-iterator). -/
def carry : List RIter → List RIter × Bool
  | [] => ([], false)
  | r :: rs =>
    let r1 := (iterate r).2
    if get r1 = .none then
      let (rs1, stopped) := carry rs
      (reset r1 :: rs1, stopped)
    else (r1 :: rs, true)
termination_by structural l => l

end

end RIter

/-- `IntRangeIterator(upperbound)`: pointer starts at 0. -/
def IntRangeIterator (upperbound : Nat) : RIter := .intRange upperbound 0

/-- `CombinedRangeIterator(rangeIterators)`: the constructor calls `reset()`. -/
def CombinedRangeIterator (rangeIterators : List RIter) : RIter :=
  RIter.reset (.combined false rangeIterators)

/-- `ConstantExtendedRangeIterator(rangeiterator, constListBefore,
constListAfter)`: the constructor calls `reset()` (which delegates to the
wrapped iterator). -/
def ConstantExtendedRangeIterator (rangeiterator : RIter)
    (constListBefore constListAfter : Option (List Val)) : RIter :=
  RIter.reset (.constExt constListBefore constListAfter rangeiterator)

/-- Drive an iterator with successive `iterate()` calls while `hasNext()`
holds, collecting the yielded values; `fuel` bounds the number of calls.
Returns the collected values and the final iterator state. -/
def runIter : Nat → RIter → List Val × RIter
  | 0, s => ([], s)
  | fuel + 1, s =>
    if s.hasNext then
      let (g, s1) := s.iterate
      let (rest, send) := runIter fuel s1
      (g :: rest, send)
    else ([], s)

/-- Apply `iterate()` `n` times, keeping only the final state. -/
def stepN : Nat → RIter → RIter
  | 0, s => s
  | n + 1, s => stepN n (s.iterate).2

/-- The exceptions the engine can raise: `ValueError` (the spec's
`ConfigurationError`), plain `Exception` (the spec's `NotRunningError`), and
`IndexError` from out-of-range subscripting. -/
inductive GSErr where
  | valueError (msg : String) : GSErr
  | exception (msg : String) : GSErr
  | indexError : GSErr
deriving Repr, DecidableEq

/-- The message of the `Exception` raised by `spinOnce` on a non-running
session. -/
def notRunningMsg : String := "Session is not running. Initialization needed."

/-- State of `DefaultLogger`: the `results` dict (keyed here by the
`(posparams, kwparams)` pair whose concatenation Python uses as dict key) and
the recorded `best`; console printing is a side effect outside the model. -/
structure DefaultLogger where
  results : List ((List Val × List (String × Val)) × Val)
  best : Option ((List Val × List (String × Val)) × Val)
  name : String
deriving Repr, DecidableEq

/-- Insert-or-replace into an association list (Python dict assignment
`self.results[params] = output`). -/
def dictInsert {K V : Type} [DecidableEq K] : List (K × V) → K → V → List (K × V)
  | [], k, v => [(k, v)]
  | (k1, v1) :: rest, k, v =>
    if k1 = k then (k, v) :: rest else (k1, v1) :: dictInsert rest k v

namespace DefaultLogger

/-- `DefaultLogger(name)`. -/
def make (name : String) : DefaultLogger :=
  { results := [], best := Option.none, name := name }

/-- Models `DefaultLogger.initialize`: clear `results` and `best` (the start
banner print is a side effect outside the model). -/
def initState (lg : DefaultLogger) : DefaultLogger :=
  { lg with results := [], best := Option.none }

/-- `DefaultLogger.update`: record the trial in `results` (and print it). -/
def update (lg : DefaultLogger) (posparams : List Val)
    (kwparams : List (String × Val)) (output : Val) : DefaultLogger :=
  { lg with results := dictInsert lg.results (posparams, kwparams) output }

/-- `DefaultLogger.logBest`: a no-op when `bestoutput is None`, otherwise
record (and print) the best parameters and output. -/
def logBest (lg : DefaultLogger) (bestposparams : List Val)
    (bestkwparams : List (String × Val)) (bestoutput : Val) : DefaultLogger :=
  if bestoutput = Val.none then lg
  else { lg with best := some ((bestposparams, bestkwparams), bestoutput) }

end DefaultLogger

/-- `DefaultComparer.leftBetterThanRight`, i.e. Python `left > right`,
restricted to the integer outputs the engine is exercised with here
(non-integer comparisons never arise in the verified scenarios). -/
def leftBetterThanRight : Val → Val → Bool
  | .int l, .int r => r < l
  | _, _ => false

/-- Python subscripting `candidates[idx]` where `idx` is an embedded value:
defined when `idx` is an in-range integer. -/
def lookupVal (candidates : List Val) : Val → Option Val
  | .int n => candidates.get? n
  | _ => Option.none

/-- `[posparams[i][indices[i]] for i in range(len(posparams))]` walking the
axes and the index list together; `Option.none` embeds the
`IndexError`/`TypeError` cases (index list too short, index out of range). -/
def zipLookup : List (List Val) → List Val → Option (List Val)
  | [], _ => some []
  | _ :: _, [] => Option.none
  | pl :: pls, i :: idxs =>
    match lookupVal pl i, zipLookup pls idxs with
    | some v, some vs => some (v :: vs)
    | _, _ => Option.none

/-- `GridSearchSession._getPosParam(indices)`.  When there are no positional
axes the comprehension never subscripts `indices`, so any value succeeds. -/
def getPosParam : List (List Val) → Val → Option (List Val)
  | [], _ => some []
  | pls, .list idxs => zipLookup pls idxs
  | _, _ => Option.none

/-- The keyword analogue of `zipLookup`, producing the `param` dict of
`_getKwParam` as an association list in `kwnames` order. -/
def kwZipLookup : List (String × List Val) → List Val →
    Option (List (String × Val))
  | [], _ => some []
  | _ :: _, [] => Option.none
  | (k, pl) :: rest, i :: idxs =>
    match lookupVal pl i, kwZipLookup rest idxs with
    | some v, some vs => some ((k, v) :: vs)
    | _, _ => Option.none

/-- `GridSearchSession._getKwParam(indices)`. -/
def getKwParam : List (String × List Val) → Val →
    Option (List (String × Val))
  | [], _ => some []
  | kws, .list idxs => kwZipLookup kws idxs
  | _, _ => Option.none

/-- A `GridSearchSession` object: running flag, the function under test
(keyword arguments passed as an association list in `kwnames` order), the
parameter lists (`kwparamlists` as an ordered association list standing for
the Python dict together with its `kwnames` key order), the optional
comparer, the logger state, the iterator tree, and the best state. -/
structure GridSearchSession where
  isrunning : Bool
  func : List Val → List (String × Val) → Val
  posargs : List (List Val)
  kwargs : List (String × List Val)
  comparer : Option (Val → Val → Bool)
  logger : DefaultLogger
  iterator : RIter
  bestOutput : Val
  bestParams : List Val × List (String × Val)

/-- The body of `GridSearchSession.__init__` after its emptiness check: wire
the iterator tree exactly as lines 69-76 of the source do, and start with no
best state. -/
def buildSession (func : List Val → List (String × Val) → Val)
    (posparamlists : List (List Val))
    (kwparamlists : List (String × List Val))
    (comparer : Option (Val → Val → Bool)) : GridSearchSession :=
  let iter :=
    if posparamlists.length = 0 then
      ConstantExtendedRangeIterator
        (CombinedRangeIterator
          (kwparamlists.map (fun kv => IntRangeIterator kv.2.length)))
        (some []) Option.none
    else if kwparamlists.length = 0 then
      ConstantExtendedRangeIterator
        (CombinedRangeIterator
          (posparamlists.map (fun pl => IntRangeIterator pl.length)))
        Option.none (some [])
    else
      CombinedRangeIterator
        [CombinedRangeIterator
          (posparamlists.map (fun pl => IntRangeIterator pl.length)),
         CombinedRangeIterator
          (kwparamlists.map (fun kv => IntRangeIterator kv.2.length))]
  { isrunning := false
    func := func
    posargs := posparamlists
    kwargs := kwparamlists
    comparer := comparer
    logger := DefaultLogger.make "Default Logger"
    iterator := iter
    bestOutput := Val.none
    bestParams := ([], []) }

namespace GridSearchSession

/-- `GridSearchSession(func, posparamlists, kwparamlists, comparer)` with the
default logger: raises `ValueError` when both parameter collections are
empty, otherwise builds the session. -/
def make (func : List Val → List (String × Val) → Val)
    (posparamlists : List (List Val))
    (kwparamlists : List (String × List Val))
    (comparer : Option (Val → Val → Bool)) :
    Except GSErr GridSearchSession :=
  if posparamlists.length = 0 ∧ kwparamlists.length = 0 then
    .error (.valueError "no parameter to iterate with.")
  else .ok (buildSession func posparamlists kwparamlists comparer)

/-- Models `GridSearchSession.initialize`: set running, re-init the logger,
reset the iterator. -/
def startSession (s : GridSearchSession) : GridSearchSession :=
  { s with isrunning := true
           logger := s.logger.initState
           iterator := s.iterator.reset }

/-- `GridSearchSession._notifyComparer`: when a comparer is configured and
either there is no best output yet (`is None`) or the comparer prefers the
new output, install the new output and parameters as the best state. -/
def notifyComparer (s : GridSearchSession) (posparam : List Val)
    (kwparam : List (String × Val)) (output : Val) : GridSearchSession :=
  match s.comparer with
  | Option.none => s
  | some c =>
    if s.bestOutput = Val.none ∨ c output s.bestOutput = true then
      { s with bestParams := (posparam, kwparam), bestOutput := output }
    else s

/-- One trial record as handed to `logger.update`:
`(posparam, kwparam, output)`. -/
def Trial : Type := List Val × List (String × Val) × Val

instance : DecidableEq Trial := by
  unfold Trial; infer_instance

/-- `GridSearchSession.spinOnce`: raise on a non-running session; otherwise
advance the iterator; on an index pair run one trial (resolve parameters —
subscripting in the source order `indices[0]`, `_getPosParam`, `indices[1]`,
`_getKwParam` — invoke the function, notify comparer then logger); on
exhaustion stop running and finalize the logger with the best state.
Returns the new session and the trial performed, if any. -/
def spinOnce (s : GridSearchSession) :
    Except GSErr (GridSearchSession × Option Trial) :=
  if s.isrunning = false then .error (.exception notRunningMsg)
  else
    let (indices, it1) := s.iterator.iterate
    let s1 := { s with iterator := it1 }
    if indices = Val.none then
      .ok ({ s1 with
              isrunning := false
              logger := s1.logger.logBest s1.bestParams.1 s1.bestParams.2
                          s1.bestOutput },
           Option.none)
    else
      match indices.at? 0 with
      | Option.none => .error .indexError
      | some i0 =>
        match getPosParam s1.posargs i0 with
        | Option.none => .error .indexError
        | some posparam =>
          match indices.at? 1 with
          | Option.none => .error .indexError
          | some i1 =>
            match getKwParam s1.kwargs i1 with
            | Option.none => .error .indexError
            | some kwparam =>
              let output := s1.func posparam kwparam
              let s2 := notifyComparer s1 posparam kwparam output
              let s3 := { s2 with
                            logger := s2.logger.update posparam kwparam output }
              .ok (s3, some (posparam, kwparam, output))

/-- `GridSearchSession.spin`: `while self.isRunning(): self.spinOnce()`,
collecting the trials in call order; `fuel` bounds the number of steps, and a
raised exception stops the loop (it propagates out of `spin` in Python). -/
def spin : Nat → GridSearchSession → GridSearchSession × List Trial
  | 0, s => (s, [])
  | fuel + 1, s =>
    if s.isrunning then
      match s.spinOnce with
      | .ok (s1, some t) =>
        let (s2, ts) := spin fuel s1
        (s2, t :: ts)
      | .ok (s1, Option.none) => spin fuel s1
      | .error _ => (s, [])
    else (s, [])

end GridSearchSession

/-- `pickle.dump` of a session into a snapshot, modelled as a faithful state
capture: pickling serializes the whole object graph, so the snapshot carries
exactly the session state. -/
def pickleDump (s : GridSearchSession) : GridSearchSession := s

/-- `pickle.load` of a snapshot, modelled as restoring exactly the captured
session state (pickle round-trips the object graph). -/
def pickleLoad (s : GridSearchSession) : GridSearchSession := s

/-- `t` is an index tuple of the Cartesian product of axes with the given
sizes: same length, each component strictly below its axis size. -/
def inRangeTuple : List Nat → List Nat → Bool
  | [], [] => true
  | b :: bs, t :: ts => t < b && inRangeTuple bs ts
  | _, _ => false

/-- Prefix every tail tuple of `ts` with each first-axis index `0..b-1`,
first axis fastest within a fixed tail. -/
def crossAxis (b : Nat) : List (List Nat) → List (List Nat)
  | [] => []
  | t :: ts => (List.range' 0 b).map (fun i => i :: t) ++ crossAxis b ts

/-- All index tuples of the Cartesian product of the given axis sizes, in
odometer order with the first axis fastest. -/
def allTuples : List Nat → List (List Nat)
  | [] => [[]]
  | b :: bs => crossAxis b (allTuples bs)

/-- The odometer successor of an index tuple: increment the first axis,
carrying into later axes; `Option.none` when the tuple is the last one. -/
def odoNext : List Nat → List Nat → Option (List Nat)
  | [], [] => Option.none
  | b :: bs, p :: ps =>
    if p + 1 < b then some ((p + 1) :: ps)
    else (odoNext bs ps).map (fun qs => 0 :: qs)
  | _, _ => Option.none

/-- The all-zeros index tuple for the given axis sizes. -/
def zerosOf (bounds : List Nat) : List Nat := bounds.map (fun _ => 0)

/-- The remaining odometer sequence from tuple `ps` (inclusive) to the end,
for the given axis sizes. -/
def runFrom : List Nat → List Nat → List (List Nat)
  | [], _ => [[]]
  | b :: bs, p :: qs =>
    (List.range' p (b - p)).map (fun i => i :: qs) ++
      crossAxis b ((runFrom bs qs).drop 1)
  | _ :: _, [] => []

/-- A list of `IntRangeIterator` states with the given bounds and pointers. -/
def intsOf : List Nat → List Nat → List RIter
  | b :: bs, p :: ps => .intRange b p :: intsOf bs ps
  | _, _ => []

/-- Embed an index tuple as the `Val` yielded by a `CombinedRangeIterator`
over `IntRangeIterator`s. -/
def ofTuple (t : List Nat) : Val := .list (t.map Val.int)

/-- Product of a list of axis sizes (the number of index tuples). -/
def listProd : List Nat → Nat
  | [] => 1
  | b :: bs => b * listProd bs

/-- The function under test of the C3 scenario: `func(x, y=1) = x*y`. -/
def funcMul : List Val → List (String × Val) → Val
  | [.int x], [(_, .int y)] => .int (x * y)
  | _, _ => .none

/-- An identity/sum function under test for single-axis scenarios:
`func(x) = x`. -/
def funcId : List Val → List (String × Val) → Val
  | [.int x], _ => .int x
  | _, _ => .none

/-- A function under test that always returns `None`. -/
def funcNone : List Val → List (String × Val) → Val := fun _ _ => .none

/-- The C3 session: `func(x,y)=x*y`, `posparamlists=[[1,2,3]]`,
`kwparamlists={y:[10,20]}`, greater-than comparer. -/
def sessC3 : GridSearchSession :=
  buildSession funcMul [[.int 1, .int 2, .int 3]] [("y", [.int 10, .int 20])]
    (some leftBetterThanRight)

/-- The C4 session: positional lists `[[1,2]]`, no keyword parameters,
identity function, default (greater-than) comparer. -/
def sessC4 : GridSearchSession :=
  buildSession funcId [[.int 1, .int 2]] [] (some leftBetterThanRight)

/-- A session whose function under test returns `None` on its single trial,
with a comparer configured. -/
def sessC10 : GridSearchSession :=
  buildSession funcNone [[.int 1]] [("y", [.int 5])] (some leftBetterThanRight)

/-! ## Iterator lemmas: `reset` is insensitive to the driven state -/

namespace RIter

mutual

/-- Resetting twice is the same as resetting once. -/
theorem reset_reset : ∀ s : RIter, reset (reset s) = reset s
  | .intRange _ _ => rfl
  | .combined _ rs => by
    simp only [reset, resetList_resetList rs]
  | .constExt _ _ inner => by
    simp only [reset, reset_reset inner]

/-- List version of `reset_reset`. -/
theorem resetList_resetList : ∀ l : List RIter,
    resetList (resetList l) = resetList l
  | [] => rfl
  | r :: rs => by
    simp only [resetList, reset_reset r, resetList_resetList rs]

end

mutual

/-- An `iterate()` call does not change what `reset()` produces. -/
theorem reset_iterate : ∀ s : RIter, reset (iterate s).2 = reset s
  | .intRange ub p => by
    by_cases h : p < ub <;> simp [iterate, reset, h]
  | .combined f rs => by
    by_cases h : get (.combined f rs) = .none
    · simp [iterate, h, reset]
    · have hrs := resetList_carry rs
      cases hc : carry rs with
      | mk rs1 stopped =>
        rw [hc] at hrs
        cases stopped <;> simp [iterate, h, hc, reset, hrs]
  | .constExt l r inner => by
    by_cases h : get (.constExt l r inner) = .none
    · simp [iterate, h]
    · simp [iterate, h, reset, reset_iterate inner]

/-- The carry loop does not change what resetting the sub-iterators
produces. -/
theorem resetList_carry : ∀ l : List RIter, resetList (carry l).1 = resetList l
  | [] => rfl
  | r :: rs => by
    have hr := reset_iterate r
    by_cases h : get (iterate r).2 = .none
    · have hrs := resetList_carry rs
      cases hc : carry rs with
      | mk rs1 stopped =>
        rw [hc] at hrs
        simp [carry, h, hc, resetList, reset_reset, hr, hrs]
    · simp [carry, h, resetList, hr]

end

/-- Driving an iterator any number of steps does not change what `reset()`
produces. -/
theorem reset_stepN : ∀ (n : Nat) (s : RIter), reset (stepN n s) = reset s
  | 0, _ => rfl
  | n + 1, s => by
    simp only [stepN, reset_stepN n, reset_iterate]

end RIter

/-- Claim C6: for every iterator of the hierarchy (`IntRangeIterator`,
`CombinedRangeIterator`, `ConstantExtendedRangeIterator` — all states of
`RIter`), calling `reset()` after the iterator has been driven any number of
`iterate()` steps from its initial reset (in particular to exhaustion)
restores a state from which successive `iterate()` calls reproduce exactly
the same full sequence of values as from the initial reset. -/
theorem claim_C6_reset_replays_same_sequence (s : RIter) (n fuel : Nat) :
    runIter fuel (RIter.reset (stepN n (RIter.reset s))) =
      runIter fuel (RIter.reset s) := by
  rw [RIter.reset_stepN, RIter.reset_reset]

/-- `resetList` is `map reset`. -/
theorem resetList_eq_map (l : List RIter) :
    RIter.resetList l = l.map RIter.reset := by
  induction l with
  | nil => rfl
  | cons r rs ih => simp [RIter.resetList, ih]

/-- Claim C2: the Product Combinator enumerates in odometer order with carry
starting at the first sub-iterator (first axis fastest): for axis sizes
`[2,3]` the six yielded tuples are exactly
`[0,0],[1,0],[0,1],[1,1],[0,2],[1,2]` in that order, after which `hasNext()`
is false. -/
theorem claim_C2_odometer_order_sizes_2_3 :
    (runIter 7 (RIter.reset
        (CombinedRangeIterator [IntRangeIterator 2, IntRangeIterator 3]))).1 =
      [ofTuple [0, 0], ofTuple [1, 0], ofTuple [0, 1],
       ofTuple [1, 1], ofTuple [0, 2], ofTuple [1, 2]]
    ∧ RIter.hasNext (runIter 7 (RIter.reset
        (CombinedRangeIterator [IntRangeIterator 2, IntRangeIterator 3]))).2 =
      false := by
  constructor <;>
    simp [runIter, RIter.iterate, RIter.carry, RIter.get, RIter.getList,
      RIter.reset, RIter.resetList, RIter.hasNext, IntRangeIterator,
      CombinedRangeIterator, ofTuple]

/-- Claim C3 counterexample: in the scenario `func(x,y)=x*y`,
`posparamlists=[[1,2,3]]`, `kwparamlists={y:[10,20]}`, greater-than comparer,
the six trial outputs appear in the order `10,20,30,20,40,60` (positional
axis fastest), which differs from the order `10,20,20,40,30,60` the claim
states (keyword axis fastest). -/
theorem claim_C3_counterexample_output_order :
    (GridSearchSession.spin 8 sessC3.startSession).2.map (fun t => t.2.2) =
      [Val.int 10, Val.int 20, Val.int 30, Val.int 20, Val.int 40, Val.int 60]
    ∧ (GridSearchSession.spin 8 sessC3.startSession).2.map (fun t => t.2.2) ≠
      [Val.int 10, Val.int 20, Val.int 20, Val.int 40, Val.int 30, Val.int 60]
    := by
  constructor <;>
    simp [GridSearchSession.spin, GridSearchSession.spinOnce,
      GridSearchSession.startSession, GridSearchSession.notifyComparer, sessC3,
      buildSession, funcMul, leftBetterThanRight, getPosParam, getKwParam,
      zipLookup, kwZipLookup, lookupVal, Val.at?, DefaultLogger.make,
      DefaultLogger.initState, DefaultLogger.update, DefaultLogger.logBest,
      dictInsert, IntRangeIterator, CombinedRangeIterator,
      ConstantExtendedRangeIterator, RIter.iterate, RIter.carry, RIter.get,
      RIter.getList, RIter.reset, RIter.resetList, RIter.hasNext]

/-- Claim C3 (amended): in the scenario `func(x,y)=x*y`,
`posparamlists=[[1,2,3]]`, `kwparamlists={y:[10,20]}`, greater-than comparer,
running to completion performs exactly 6 trials whose outputs appear in the
order `10,20,30,20,40,60` (positional axis `x` varying fastest:
`(1,10),(2,10),(3,10),(1,20),(2,20),(3,20)`), and the final best state is
output `60` at parameters `x=3, y=20`, with the session terminated. -/
theorem claim_C3_amended_run :
    (GridSearchSession.spin 8 sessC3.startSession).2.length = 6
    ∧ (GridSearchSession.spin 8 sessC3.startSession).2.map (fun t => t.2.2) =
      [Val.int 10, Val.int 20, Val.int 30, Val.int 20, Val.int 40, Val.int 60]
    ∧ (GridSearchSession.spin 8 sessC3.startSession).2.map
        (fun t => (t.1, t.2.1)) =
      [([Val.int 1], [("y", Val.int 10)]), ([Val.int 2], [("y", Val.int 10)]),
       ([Val.int 3], [("y", Val.int 10)]), ([Val.int 1], [("y", Val.int 20)]),
       ([Val.int 2], [("y", Val.int 20)]), ([Val.int 3], [("y", Val.int 20)])]
    ∧ (GridSearchSession.spin 8 sessC3.startSession).1.bestOutput = Val.int 60
    ∧ (GridSearchSession.spin 8 sessC3.startSession).1.bestParams =
      ([Val.int 3], [("y", Val.int 20)])
    ∧ (GridSearchSession.spin 8 sessC3.startSession).1.isrunning = false := by
  refine ⟨?_, ?_, ?_, ?_, ?_, ?_⟩ <;>
    simp [GridSearchSession.spin, GridSearchSession.spinOnce,
      GridSearchSession.startSession, GridSearchSession.notifyComparer, sessC3,
      buildSession, funcMul, leftBetterThanRight, getPosParam, getKwParam,
      zipLookup, kwZipLookup, lookupVal, Val.at?, DefaultLogger.make,
      DefaultLogger.initState, DefaultLogger.update, DefaultLogger.logBest,
      dictInsert, IntRangeIterator, CombinedRangeIterator,
      ConstantExtendedRangeIterator, RIter.iterate, RIter.carry, RIter.get,
      RIter.getList, RIter.reset, RIter.resetList, RIter.hasNext]

/-- Claim C4 (code evaluated at the failing input): for the session with
positional lists `[[1,2]]` and no keyword parameters, the Constant-Padding
Adapter yields the 1-element tuple `([0],)` — not the uniform 2-tuple
`(posIndices, kwIndices)` shape — because splicing the empty constant list
contributes no element; consequently the very first `spinOnce` raises
`IndexError` at `indices[1]` and the run completes 0 trials instead of 2. -/
theorem claim_C4_single_sided_session_breaks :
    RIter.get sessC4.startSession.iterator = Val.list [Val.list [Val.int 0]]
    ∧ sessC4.startSession.spinOnce = .error .indexError
    ∧ (GridSearchSession.spin 4 sessC4.startSession).2.length = 0
    ∧ (GridSearchSession.spin 4 sessC4.startSession).1.bestOutput = Val.none
    := by
  refine ⟨?_, ?_, ?_, ?_⟩ <;>
    simp [GridSearchSession.spin, GridSearchSession.spinOnce,
      GridSearchSession.startSession, GridSearchSession.notifyComparer, sessC4,
      buildSession, funcId, leftBetterThanRight, getPosParam, getKwParam,
      zipLookup, kwZipLookup, lookupVal, Val.at?, DefaultLogger.make,
      DefaultLogger.initState, DefaultLogger.update, DefaultLogger.logBest,
      dictInsert, IntRangeIterator, CombinedRangeIterator,
      ConstantExtendedRangeIterator, RIter.iterate, RIter.carry, RIter.get,
      RIter.getList, RIter.reset, RIter.resetList, RIter.hasNext]

/-- Claim C7: an `IntRangeIterator` with bound 0 has `hasNext()` false in
every state, and a `CombinedRangeIterator` containing a bound-0
`IntRangeIterator` (in any state) among its sub-iterators has `hasNext()`
false immediately after `reset()`, regardless of the sibling iterators. -/
theorem claim_C7_zero_axis_immediately_exhausted :
    (∀ p : Nat, RIter.hasNext (.intRange 0 p) = false)
    ∧ (∀ (fl : Bool) (subs : List RIter),
        (∃ n, RIter.intRange 0 n ∈ subs) →
        RIter.hasNext (RIter.reset (.combined fl subs)) = false) := by
  constructor
  · intro p; simp [RIter.hasNext]
  · rintro fl subs ⟨n, hn⟩
    have hmem : RIter.intRange 0 0 ∈ RIter.resetList subs := by
      rw [resetList_eq_map]
      exact List.mem_map.mpr ⟨_, hn, rfl⟩
    have hall : (RIter.resetList subs).all RIter.hasNext = false := by
      rw [List.all_eq_false]
      exact ⟨_, hmem, by simp [RIter.hasNext]⟩
    simp [RIter.reset, RIter.hasNext, hall]

/-- Witness for claim C7: a combinator over sizes `[2,0,3]` — its second
sub-iterator is a bound-0 counter — is exhausted right after `reset()`. -/
theorem claim_C7_witness :
    (∃ n, RIter.intRange 0 n ∈
        [RIter.intRange 2 0, RIter.intRange 0 0, RIter.intRange 3 0])
    ∧ RIter.hasNext (RIter.reset (.combined true
        [RIter.intRange 2 0, RIter.intRange 0 0, RIter.intRange 3 0])) =
      false := by
  refine ⟨⟨0, by simp⟩, ?_⟩
  exact claim_C7_zero_axis_immediately_exhausted.2 true
    [RIter.intRange 2 0, RIter.intRange 0 0, RIter.intRange 3 0]
    ⟨0, by simp⟩

/-- Claim C8: constructing a session whose positional-list collection and
keyword map are both empty raises `ValueError` (the spec's
`ConfigurationError`) at construction time; construction succeeds whenever
at least one positional list or one keyword entry exists. -/
theorem claim_C8_construction_requires_one_axis
    (func : List Val → List (String × Val) → Val)
    (pos : List (List Val)) (kw : List (String × List Val))
    (cmp : Option (Val → Val → Bool)) :
    ((pos = [] ∧ kw = []) →
      GridSearchSession.make func pos kw cmp =
        .error (.valueError "no parameter to iterate with."))
    ∧ ((pos ≠ [] ∨ kw ≠ []) →
      ∃ s, GridSearchSession.make func pos kw cmp = .ok s) := by
  constructor
  · rintro ⟨h1, h2⟩
    simp [GridSearchSession.make, h1, h2]
  · intro h
    have hcond : ¬(pos.length = 0 ∧ kw.length = 0) := by
      rcases h with h | h
      · intro ⟨h1, _⟩; exact h (List.length_eq_zero.mp h1)
      · intro ⟨_, h2⟩; exact h (List.length_eq_zero.mp h2)
    refine ⟨buildSession func pos kw cmp, ?_⟩
    unfold GridSearchSession.make
    rw [if_neg hcond]

/-- Witness for claim C8: with both collections empty, construction fails
with the `ValueError`; with one positional list it succeeds. -/
theorem claim_C8_witness :
    (GridSearchSession.make funcId [] [] Option.none =
      .error (.valueError "no parameter to iterate with."))
    ∧ (∃ s, GridSearchSession.make funcId [[Val.int 1]] [] Option.none =
        .ok s) := by
  constructor
  · exact (claim_C8_construction_requires_one_axis funcId [] []
      Option.none).1 ⟨rfl, rfl⟩
  · exact (claim_C8_construction_requires_one_axis funcId [[Val.int 1]] []
      Option.none).2 (Or.inl (by simp))

/-- Claim C9: `spinOnce` on a session that is not running raises the
`Exception` with message "Session is not running. Initialization needed."
(the spec's `NotRunningError`) and performs no trial (the error result
carries no new state and no trial); on a running session `spinOnce` never
raises that error. -/
theorem claim_C9_spinOnce_not_running_error (s : GridSearchSession) :
    (s.isrunning = false → s.spinOnce = .error (.exception notRunningMsg))
    ∧ (s.isrunning = true → s.spinOnce ≠ .error (.exception notRunningMsg))
    := by
  constructor
  · intro h
    simp [GridSearchSession.spinOnce, h]
  · intro h
    unfold GridSearchSession.spinOnce
    rcases hit : s.iterator.iterate with ⟨v, it⟩
    simp only [h, hit]
    rw [if_neg (by simp)]
    split <;> try simp
    split <;> try simp
    split <;> try simp
    split <;> try simp
    split <;> simp

/-- Witness for claim C9: the freshly built (never-started) C3 session is not
running and `spinOnce` raises the not-running `Exception`; after starting it,
`spinOnce` does not raise that error. -/
theorem claim_C9_witness :
    (sessC3.spinOnce = .error (.exception notRunningMsg))
    ∧ (sessC3.startSession.spinOnce ≠ .error (.exception notRunningMsg)) := by
  constructor
  · exact (claim_C9_spinOnce_not_running_error sessC3).1 rfl
  · exact (claim_C9_spinOnce_not_running_error sessC3.startSession).2 rfl

/-- Claim C10: when a comparer is configured and the current best output is
`None`, any trial output (including `None`) is installed as the best state
without consulting the comparer (the update is the same for every comparer);
`DefaultLogger.logBest` with a `None` best output performs no best-report
action; and in a completed run whose one successful trial returned `None`,
the final best output is `None` and the logger records no best — so `None`
trial outputs are indistinguishable from "no best yet". -/
theorem claim_C10_none_output_best_handling :
    (∀ (s : GridSearchSession) (c : Val → Val → Bool) (pp : List Val)
        (kp : List (String × Val)) (out : Val),
      s.comparer = some c → s.bestOutput = Val.none →
      (s.notifyComparer pp kp out).bestOutput = out ∧
      (s.notifyComparer pp kp out).bestParams = (pp, kp))
    ∧ (∀ (lg : DefaultLogger) (bpp : List Val) (bkp : List (String × Val)),
        lg.logBest bpp bkp Val.none = lg)
    ∧ ((GridSearchSession.spin 4 sessC10.startSession).2.length = 1
      ∧ (GridSearchSession.spin 4 sessC10.startSession).1.isrunning = false
      ∧ (GridSearchSession.spin 4 sessC10.startSession).1.bestOutput = Val.none
      ∧ (GridSearchSession.spin 4 sessC10.startSession).1.logger.best =
          Option.none) := by
  refine ⟨?_, ?_, ?_⟩
  · intro s c pp kp out hc hb
    constructor <;> simp [GridSearchSession.notifyComparer, hc, hb]
  · intro lg bpp bkp
    simp [DefaultLogger.logBest]
  · refine ⟨?_, ?_, ?_, ?_⟩ <;>
      simp [GridSearchSession.spin, GridSearchSession.spinOnce,
        GridSearchSession.startSession, GridSearchSession.notifyComparer,
        sessC10, buildSession, funcNone, leftBetterThanRight, getPosParam,
        getKwParam, zipLookup, kwZipLookup, lookupVal, Val.at?,
        DefaultLogger.make, DefaultLogger.initState, DefaultLogger.update,
        DefaultLogger.logBest, dictInsert, IntRangeIterator,
        CombinedRangeIterator, ConstantExtendedRangeIterator, RIter.iterate,
        RIter.carry, RIter.get, RIter.getList, RIter.reset, RIter.resetList,
        RIter.hasNext]

/-- Witness for claim C10: instantiating the comparer-bypass part on the C10
session (best output `None`, greater-than comparer) with trial output
`None`. -/
theorem claim_C10_witness :
    (sessC10.comparer = some leftBetterThanRight)
    ∧ (sessC10.bestOutput = Val.none)
    ∧ (sessC10.notifyComparer [Val.int 1] [("y", Val.int 5)]
        Val.none).bestOutput = Val.none := by
  refine ⟨rfl, rfl, ?_⟩
  exact (claim_C10_none_output_best_handling.1 sessC10 leftBetterThanRight
    [Val.int 1] [("y", Val.int 5)] Val.none rfl rfl).1

/-- `spin` leaves a non-running session untouched. -/
theorem spin_not_running (fuel : Nat) (s : GridSearchSession)
    (h : s.isrunning = false) :
    GridSearchSession.spin fuel s = (s, []) := by
  cases fuel with
  | zero => rfl
  | succ n => simp [GridSearchSession.spin, h]

/-- `spin` stops (with the pre-error state) on a session whose next
`spinOnce` raises. -/
theorem spin_error (fuel : Nat) (s : GridSearchSession) (e : GSErr)
    (h : s.spinOnce = .error e) :
    GridSearchSession.spin fuel s = (s, []) := by
  cases fuel with
  | zero => rfl
  | succ n =>
    by_cases hr : s.isrunning
    · simp [GridSearchSession.spin, hr, h]
    · simp [GridSearchSession.spin, hr]

/-- Splitting a `spin` run: running `k + fuel` steps equals running `k`
steps and then `fuel` more from the reached state, concatenating the trial
lists. -/
theorem spin_add (k fuel : Nat) (s : GridSearchSession) :
    GridSearchSession.spin (k + fuel) s =
      ((GridSearchSession.spin fuel (GridSearchSession.spin k s).1).1,
       (GridSearchSession.spin k s).2 ++
         (GridSearchSession.spin fuel (GridSearchSession.spin k s).1).2) := by
  induction k generalizing s with
  | zero =>
    simp [GridSearchSession.spin, Nat.zero_add]
  | succ k ih =>
    by_cases hr : s.isrunning
    · cases hso : s.spinOnce with
      | ok p =>
        rcases p with ⟨s2, t?⟩
        cases t? with
        | some t =>
          have heq : k + 1 + fuel = (k + fuel) + 1 := by omega
          rw [heq]
          simp [GridSearchSession.spin, hr, hso, ih]
        | none =>
          have heq : k + 1 + fuel = (k + fuel) + 1 := by omega
          rw [heq]
          simp [GridSearchSession.spin, hr, hso, ih]
      | error e =>
        have heq : k + 1 + fuel = (k + fuel) + 1 := by omega
        rw [heq]
        simp [GridSearchSession.spin, hr, hso, spin_error fuel s e hso]
    · have h0 : s.isrunning = false := by simpa using hr
      rw [spin_not_running (k + 1 + fuel) s h0, spin_not_running (k + 1) s h0]
      simp [spin_not_running fuel s h0]

/-- Claim C5: for every session state (hence every configuration) and every
step count `k`, pickling the session after `k` steps of the driver loop and
resuming from the loaded snapshot produces exactly the same remaining trial
sequence, the same final session state, and the same final best state as the
uninterrupted run (the uninterrupted trials are the first-`k`-step trials
followed by the resumed ones). -/
theorem claim_C5_snapshot_resume_equivalence (s : GridSearchSession)
    (k fuel : Nat) :
    GridSearchSession.spin (k + fuel) s =
      ((GridSearchSession.spin fuel
          (pickleLoad (pickleDump (GridSearchSession.spin k s).1))).1,
       (GridSearchSession.spin k s).2 ++
         (GridSearchSession.spin fuel
           (pickleLoad (pickleDump (GridSearchSession.spin k s).1))).2)
    ∧ (GridSearchSession.spin (k + fuel) s).1.bestOutput =
      (GridSearchSession.spin fuel
        (pickleLoad (pickleDump (GridSearchSession.spin k s).1))).1.bestOutput
    := by
  have h := spin_add k fuel s
  exact ⟨h, by rw [h]; rfl⟩

theorem inRange_zerosOf : ∀ (bounds : List Nat), (∀ b ∈ bounds, 0 < b) →
    inRangeTuple bounds (zerosOf bounds) = true
  | [], _ => rfl
  | b :: bs, h => by
    have hb : 0 < b := h b (by simp)
    have ih := inRange_zerosOf bs (fun x hx => h x (by simp [hx]))
    show inRangeTuple (b :: bs) (0 :: zerosOf bs) = true
    simp only [inRangeTuple, Bool.and_eq_true, decide_eq_true_eq]
    exact ⟨hb, ih⟩

theorem odoNext_inRange : ∀ (bounds ps ps' : List Nat),
    inRangeTuple bounds ps = true → odoNext bounds ps = some ps' →
    inRangeTuple bounds ps' = true
  | [], [], _, _, ho => by simp [odoNext] at ho
  | b :: bs, p :: qs, ps', h, ho => by
    simp only [inRangeTuple, Bool.and_eq_true, decide_eq_true_eq] at h
    obtain ⟨hp, hqs⟩ := h
    simp only [odoNext] at ho
    by_cases hlt : p + 1 < b
    · rw [if_pos hlt] at ho
      obtain rfl : (p + 1) :: qs = ps' := by simpa using ho
      simp [inRangeTuple, hlt, hqs]
    · rw [if_neg hlt] at ho
      rcases hqo : odoNext bs qs with _ | qs'
      · rw [hqo] at ho; simp at ho
      · rw [hqo] at ho
        obtain rfl : (0 : Nat) :: qs' = ps' := by simpa using ho
        have := odoNext_inRange bs qs qs' hqs hqo
        simp [inRangeTuple, this]
        omega
  | [], _ :: _, _, h, _ => by simp [inRangeTuple] at h
  | _ :: _, [], _, h, _ => by simp [inRangeTuple] at h

theorem getList_intsOf : ∀ (bounds ps : List Nat),
    inRangeTuple bounds ps = true →
    RIter.getList (intsOf bounds ps) = ps.map Val.int
  | [], [], _ => rfl
  | b :: bs, p :: qs, h => by
    simp only [inRangeTuple, Bool.and_eq_true, decide_eq_true_eq] at h
    simp [intsOf, RIter.getList, RIter.get, h.1, getList_intsOf bs qs h.2]
  | [], _ :: _, h => by simp [inRangeTuple] at h
  | _ :: _, [], h => by simp [inRangeTuple] at h

theorem carry_intsOf_some : ∀ (bounds ps ps' : List Nat),
    inRangeTuple bounds ps = true → odoNext bounds ps = some ps' →
    RIter.carry (intsOf bounds ps) = (intsOf bounds ps', true)
  | [], [], _, _, ho => by simp [odoNext] at ho
  | b :: bs, p :: qs, ps', h, ho => by
    simp only [inRangeTuple, Bool.and_eq_true, decide_eq_true_eq] at h
    obtain ⟨hp, hqs⟩ := h
    simp only [odoNext] at ho
    by_cases hlt : p + 1 < b
    · rw [if_pos hlt] at ho
      obtain rfl : (p + 1) :: qs = ps' := by simpa using ho
      simp [intsOf, RIter.carry, RIter.iterate, RIter.get, hp, hlt]
    · rw [if_neg hlt] at ho
      rcases hqo : odoNext bs qs with _ | qs'
      · rw [hqo] at ho; simp at ho
      · rw [hqo] at ho
        obtain rfl : (0 : Nat) :: qs' = ps' := by simpa using ho
        have ih := carry_intsOf_some bs qs qs' hqs hqo
        simp [intsOf, RIter.carry, RIter.iterate, RIter.get, hp, hlt, ih,
          RIter.reset]
  | [], _ :: _, _, h, _ => by simp [inRangeTuple] at h
  | _ :: _, [], _, h, _ => by simp [inRangeTuple] at h

theorem carry_intsOf_none : ∀ (bounds ps : List Nat),
    inRangeTuple bounds ps = true → odoNext bounds ps = Option.none →
    RIter.carry (intsOf bounds ps) = (intsOf bounds (zerosOf bounds), false)
  | [], [], _, _ => rfl
  | b :: bs, p :: qs, h, ho => by
    simp only [inRangeTuple, Bool.and_eq_true, decide_eq_true_eq] at h
    obtain ⟨hp, hqs⟩ := h
    simp only [odoNext] at ho
    by_cases hlt : p + 1 < b
    · rw [if_pos hlt] at ho; simp at ho
    · rw [if_neg hlt] at ho
      rcases hqo : odoNext bs qs with _ | qs'
      · have ih := carry_intsOf_none bs qs hqs hqo
        simp [intsOf, RIter.carry, RIter.iterate, RIter.get, hp, hlt, ih,
          RIter.reset, zerosOf]
      · rw [hqo] at ho; simp at ho
  | [], _ :: _, h, _ => by simp [inRangeTuple] at h
  | _ :: _, [], h, _ => by simp [inRangeTuple] at h

theorem iterate_combined_some (bounds ps ps' : List Nat)
    (h : inRangeTuple bounds ps = true) (ho : odoNext bounds ps = some ps') :
    RIter.iterate (.combined true (intsOf bounds ps)) =
      (ofTuple ps, .combined true (intsOf bounds ps')) := by
  simp [RIter.iterate, RIter.get, getList_intsOf bounds ps h,
    carry_intsOf_some bounds ps ps' h ho, ofTuple]

theorem iterate_combined_none (bounds ps : List Nat)
    (h : inRangeTuple bounds ps = true)
    (ho : odoNext bounds ps = Option.none) :
    RIter.iterate (.combined true (intsOf bounds ps)) =
      (ofTuple ps, .combined false (intsOf bounds (zerosOf bounds))) := by
  simp [RIter.iterate, RIter.get, getList_intsOf bounds ps h,
    carry_intsOf_none bounds ps h ho, ofTuple]

theorem runFrom_head : ∀ (bounds ps : List Nat),
    inRangeTuple bounds ps = true →
    runFrom bounds ps = ps :: (runFrom bounds ps).tail
  | [], [], _ => rfl
  | b :: bs, p :: qs, h => by
    simp only [inRangeTuple, Bool.and_eq_true, decide_eq_true_eq] at h
    obtain ⟨hp, _⟩ := h
    have hbp : b - p = (b - (p + 1)) + 1 := by omega
    rw [runFrom, hbp, List.range'_succ p (b - (p + 1)) 1]
    simp
  | [], _ :: _, h => by simp [inRangeTuple] at h
  | _ :: _, [], h => by simp [inRangeTuple] at h

theorem runFrom_cons_some : ∀ (bounds ps ps' : List Nat),
    inRangeTuple bounds ps = true → odoNext bounds ps = some ps' →
    runFrom bounds ps = ps :: runFrom bounds ps'
  | [], [], _, _, ho => by simp [odoNext] at ho
  | b :: bs, p :: qs, ps', h, ho => by
    simp only [inRangeTuple, Bool.and_eq_true, decide_eq_true_eq] at h
    obtain ⟨hp, hqs⟩ := h
    simp only [odoNext] at ho
    by_cases hlt : p + 1 < b
    · rw [if_pos hlt] at ho
      obtain rfl : (p + 1) :: qs = ps' := by simpa using ho
      have hbp : b - p = (b - (p + 1)) + 1 := by omega
      rw [runFrom, hbp, List.range'_succ p (b - (p + 1)) 1, runFrom]
      simp
    · rw [if_neg hlt] at ho
      rcases hqo : odoNext bs qs with _ | qs'
      · rw [hqo] at ho; simp at ho
      · rw [hqo] at ho
        obtain rfl : (0 : Nat) :: qs' = ps' := by simpa using ho
        have ih := runFrom_cons_some bs qs qs' hqs hqo
        have hqs' : inRangeTuple bs qs' = true :=
          odoNext_inRange bs qs qs' hqs hqo
        have hhead := runFrom_head bs qs' hqs'
        have hb1 : b - p = 1 := by omega
        rw [runFrom, hb1]
        rw [runFrom]
        rw [ih]
        simp only [List.drop_succ_cons, List.drop_zero]
        conv_lhs => rw [hhead]
        rw [crossAxis]
        simp [Nat.sub_zero]
  | [], _ :: _, _, h, _ => by simp [inRangeTuple] at h
  | _ :: _, [], _, h, _ => by simp [inRangeTuple] at h

theorem runFrom_single_none : ∀ (bounds ps : List Nat),
    inRangeTuple bounds ps = true → odoNext bounds ps = Option.none →
    runFrom bounds ps = [ps]
  | [], [], _, _ => rfl
  | b :: bs, p :: qs, h, ho => by
    simp only [inRangeTuple, Bool.and_eq_true, decide_eq_true_eq] at h
    obtain ⟨hp, hqs⟩ := h
    simp only [odoNext] at ho
    by_cases hlt : p + 1 < b
    · rw [if_pos hlt] at ho; simp at ho
    · rw [if_neg hlt] at ho
      rcases hqo : odoNext bs qs with _ | qs'
      · have ih := runFrom_single_none bs qs hqs hqo
        have hb1 : b - p = 1 := by omega
        rw [runFrom, hb1, ih]
        simp [crossAxis]
      · rw [hqo] at ho; simp at ho
  | [], _ :: _, h, _ => by simp [inRangeTuple] at h
  | _ :: _, [], h, _ => by simp [inRangeTuple] at h

theorem runIter_not_hasNext (fuel : Nat) (s : RIter)
    (h : RIter.hasNext s = false) : runIter fuel s = ([], s) := by
  cases fuel with
  | zero => rfl
  | succ n => simp [runIter, h]

theorem runIter_combined : ∀ (fuel : Nat) (bounds ps : List Nat),
    inRangeTuple bounds ps = true → (runFrom bounds ps).length ≤ fuel →
    runIter fuel (.combined true (intsOf bounds ps)) =
      ((runFrom bounds ps).map ofTuple,
       .combined false (intsOf bounds (zerosOf bounds)))
  | 0, bounds, ps, h, hlen => by
    rw [runFrom_head bounds ps h] at hlen
    simp at hlen
  | fuel + 1, bounds, ps, h, hlen => by
    rcases hqo : odoNext bounds ps with _ | ps'
    · have hrf := runFrom_single_none bounds ps h hqo
      have hit := iterate_combined_none bounds ps h hqo
      have hstop := runIter_not_hasNext fuel
        (RIter.combined false (intsOf bounds (zerosOf bounds))) rfl
      simp [runIter, RIter.hasNext, hit, hstop, hrf]
    · have hrf := runFrom_cons_some bounds ps ps' h hqo
      have hit := iterate_combined_some bounds ps ps' h hqo
      have hps' : inRangeTuple bounds ps' = true :=
        odoNext_inRange bounds ps ps' h hqo
      have hlen' : (runFrom bounds ps').length ≤ fuel := by
        rw [hrf] at hlen; simpa using hlen
      have ih := runIter_combined fuel bounds ps' hps' hlen'
      simp [runIter, RIter.hasNext, hit, ih, hrf]

theorem runFrom_zerosOf : ∀ (bounds : List Nat), (∀ b ∈ bounds, 0 < b) →
    runFrom bounds (zerosOf bounds) = allTuples bounds
  | [], _ => rfl
  | b :: bs, h => by
    have ih := runFrom_zerosOf bs (fun x hx => h x (by simp [hx]))
    have hzr : inRangeTuple bs (zerosOf bs) = true :=
      inRange_zerosOf bs (fun x hx => h x (by simp [hx]))
    have hhead := runFrom_head bs (zerosOf bs) hzr
    show runFrom (b :: bs) (0 :: zerosOf bs) = allTuples (b :: bs)
    rw [runFrom, allTuples, ← ih]
    conv_rhs => rw [hhead]
    rw [crossAxis]
    simp

theorem mem_crossAxis (b : Nat) : ∀ (ts : List (List Nat)) (t : List Nat),
    t ∈ crossAxis b ts ↔ ∃ i tl, i < b ∧ tl ∈ ts ∧ t = i :: tl
  | [], t => by simp [crossAxis]
  | t0 :: ts, t => by
    rw [crossAxis]
    simp only [List.mem_append, List.mem_map, mem_crossAxis b ts t,
      List.mem_range'_1, List.mem_cons]
    constructor
    · rintro (⟨i, ⟨_, hi⟩, rfl⟩ | ⟨i, tl, hi, htl, rfl⟩)
      · exact ⟨i, t0, by omega, Or.inl rfl, rfl⟩
      · exact ⟨i, tl, hi, Or.inr htl, rfl⟩
    · rintro ⟨i, tl, hi, htl | htl, rfl⟩
      · exact Or.inl ⟨i, ⟨by omega, by omega⟩, by rw [htl]⟩
      · exact Or.inr ⟨i, tl, hi, htl, rfl⟩

theorem mem_allTuples : ∀ (bounds t : List Nat),
    t ∈ allTuples bounds ↔ inRangeTuple bounds t = true
  | [], t => by
    cases t <;> simp [allTuples, inRangeTuple]
  | b :: bs, t => by
    rw [allTuples, mem_crossAxis]
    cases t with
    | nil =>
      simp [inRangeTuple]
    | cons x xs =>
      simp only [inRangeTuple, Bool.and_eq_true, decide_eq_true_eq]
      constructor
      · rintro ⟨i, tl, hi, htl, heq⟩
        injection heq with h1 h2
        subst h1; subst h2
        exact ⟨hi, (mem_allTuples bs _).mp htl⟩
      · rintro ⟨hx, hxs⟩
        exact ⟨x, xs, hx, (mem_allTuples bs xs).mpr hxs, rfl⟩

theorem nodup_crossAxis (b : Nat) : ∀ (ts : List (List Nat)),
    ts.Nodup → (crossAxis b ts).Nodup
  | [], _ => by simp [crossAxis]
  | t0 :: ts, h => by
    rw [crossAxis]
    have h0 : t0 ∉ ts := (List.nodup_cons.mp h).1
    have hts : ts.Nodup := (List.nodup_cons.mp h).2
    refine List.Nodup.append ?_ (nodup_crossAxis b ts hts) ?_
    · exact List.Nodup.map (fun a a' ha => by simpa using ha)
        (List.nodup_range' 0 b)
    · intro x hx1 hx2
      obtain ⟨i, ⟨_, _⟩, rfl⟩ := by
        simpa only [List.mem_map, List.mem_range'_1] using hx1
      obtain ⟨j, tl, hj, htl, heq⟩ := (mem_crossAxis b ts _).mp hx2
      injection heq with h1 h2
      subst h1; subst h2
      exact h0 htl

theorem nodup_allTuples : ∀ (bounds : List Nat), (allTuples bounds).Nodup
  | [] => by simp [allTuples]
  | b :: bs => nodup_crossAxis b (allTuples bs) (nodup_allTuples bs)

theorem length_crossAxis (b : Nat) : ∀ (ts : List (List Nat)),
    (crossAxis b ts).length = b * ts.length
  | [] => by simp [crossAxis]
  | t0 :: ts => by
    rw [crossAxis]
    simp [length_crossAxis b ts, Nat.mul_succ, Nat.add_comm]

theorem length_allTuples : ∀ (bounds : List Nat),
    (allTuples bounds).length = listProd bounds
  | [] => rfl
  | b :: bs => by
    rw [allTuples, length_crossAxis, length_allTuples bs, listProd]

theorem resetList_map_IntRange : ∀ (bounds : List Nat),
    RIter.resetList (bounds.map IntRangeIterator) =
      intsOf bounds (zerosOf bounds)
  | [] => rfl
  | b :: bs => by
    show RIter.resetList (IntRangeIterator b :: bs.map IntRangeIterator) =
      intsOf (b :: bs) (0 :: zerosOf bs)
    rw [RIter.resetList, intsOf, resetList_map_IntRange bs]
    rfl

theorem all_hasNext_intsOf_zeros : ∀ (bounds : List Nat),
    (∀ b ∈ bounds, 0 < b) →
    (intsOf bounds (zerosOf bounds)).all RIter.hasNext = true
  | [], _ => rfl
  | b :: bs, h => by
    have hb : 0 < b := h b (by simp)
    have ih := all_hasNext_intsOf_zeros bs (fun x hx => h x (by simp [hx]))
    show (RIter.intRange b 0 :: intsOf bs (zerosOf bs)).all RIter.hasNext = true
    simp only [List.all_cons, ih, Bool.and_true]
    simpa [RIter.hasNext] using hb

theorem reset_wiring (bounds : List Nat) (hne : bounds ≠ [])
    (hpos : ∀ b ∈ bounds, 0 < b) :
    RIter.reset (CombinedRangeIterator (bounds.map IntRangeIterator)) =
      .combined true (intsOf bounds (zerosOf bounds)) := by
  rw [CombinedRangeIterator, RIter.reset_reset, RIter.reset,
    resetList_map_IntRange, all_hasNext_intsOf_zeros bounds hpos]
  have hemp : (intsOf bounds (zerosOf bounds)).isEmpty = false := by
    cases bounds with
    | nil => exact absurd rfl hne
    | cons b bs => rfl
  rw [hemp]
  rfl

theorem ofTuple_injective : Function.Injective ofTuple := by
  intro a b h
  simp only [ofTuple, Val.list.injEq] at h
  exact List.map_injective_iff.mpr (fun x y hxy => by injection hxy) h

/-- Claim C1 (amended): for every NON-EMPTY list of axis bounds all at least
1, after `reset()` the `CombinedRangeIterator` over the corresponding
`IntRangeIterator`s yields, over successive `iterate()` calls until
`hasNext()` becomes false, every index tuple of the Cartesian product of the
axes exactly once — each in-range tuple appears exactly once in the run,
everything yielded is an in-range tuple, and the run terminates. -/
theorem claim_C1_amended_product_exactly_once (bounds : List Nat)
    (hne : bounds ≠ []) (hpos : ∀ b ∈ bounds, 0 < b) :
    (∀ t : List Nat, inRangeTuple bounds t = true →
      (runIter (listProd bounds + 1) (RIter.reset
        (CombinedRangeIterator (bounds.map IntRangeIterator)))).1.count
        (ofTuple t) = 1)
    ∧ (∀ v ∈ (runIter (listProd bounds + 1) (RIter.reset
        (CombinedRangeIterator (bounds.map IntRangeIterator)))).1,
        ∃ t : List Nat, inRangeTuple bounds t = true ∧ v = ofTuple t)
    ∧ RIter.hasNext (runIter (listProd bounds + 1) (RIter.reset
        (CombinedRangeIterator (bounds.map IntRangeIterator)))).2 = false := by
  have hzr := inRange_zerosOf bounds hpos
  have hlen : (runFrom bounds (zerosOf bounds)).length ≤ listProd bounds + 1 := by
    rw [runFrom_zerosOf bounds hpos, length_allTuples]
    omega
  have hrun := runIter_combined (listProd bounds + 1) bounds (zerosOf bounds)
    hzr hlen
  rw [reset_wiring bounds hne hpos, hrun, runFrom_zerosOf bounds hpos]
  refine ⟨?_, ?_, rfl⟩
  · intro t ht
    rw [List.count_map_of_injective _ ofTuple ofTuple_injective t]
    exact List.count_eq_one_of_mem (nodup_allTuples bounds)
      ((mem_allTuples bounds t).mpr ht)
  · intro v hv
    obtain ⟨t, ht, rfl⟩ := List.mem_map.mp hv
    exact ⟨t, (mem_allTuples bounds t).mp ht, rfl⟩

/-- Claim C1 counterexample: for the EMPTY list of sub-iterators (all axis
sizes are at least 1 vacuously), the Cartesian product of zero axes contains
the empty index tuple, but after `reset()` the combinator yields nothing —
the empty tuple is omitted, so the claim fails as stated. -/
theorem claim_C1_counterexample :
    (∀ b ∈ ([] : List Nat), 1 ≤ b)
    ∧ inRangeTuple [] [] = true
    ∧ (runIter (listProd [] + 1) (RIter.reset
        (CombinedRangeIterator (([] : List Nat).map IntRangeIterator)))).1.count
        (ofTuple []) = 0 := by
  refine ⟨by simp, rfl, ?_⟩
  rfl

/-- Witness for the amended claim C1 at the concrete bounds `[2]`. -/
theorem claim_C1_witness :
    (([2] : List Nat) ≠ []) ∧ (∀ b ∈ ([2] : List Nat), 0 < b) ∧
    (∀ t : List Nat, inRangeTuple [2] t = true →
      (runIter (listProd [2] + 1) (RIter.reset
        (CombinedRangeIterator (([2] : List Nat).map IntRangeIterator)))).1.count
        (ofTuple t) = 1) :=
  ⟨by simp, by simp,
    (claim_C1_amended_product_exactly_once [2] (by simp) (by simp)).1⟩
